import Mathlib

/-!
Shallow embedding of the Cypher completion engine of this repository
(server/src/autocompletion.ts together with the DbSchema record of
server/src/dbSchema.ts).  The pure classification logic is translated
directly from the source; the external collaborators named by the design
document — the ANTLR parse provider and the antlr4-c3 grammar candidate
collector — enter the embedding as explicit function parameters, and the
small helpers of server/src/helpers.ts (absent from the given sources) are
modelled from the design document where noted.
-/

namespace CypherComp

/-- A lexical token: its ANTLR token-type number and its source text. -/
structure Token where
  type : Nat
  text : String
  deriving DecidableEq, Repr

/-- Completion item kinds used by the engine (the fixed external contract). -/
inductive CompletionItemKind where
  | Keyword
  | TypeParameter
  | Function
  | Value
  deriving DecidableEq, Repr

/-- A completion item as returned over the wire. -/
structure CompletionItem where
  label : String
  kind : CompletionItemKind
  deriving DecidableEq, Repr

/-- The schema catalogs consumed by the engine (DbInfo in the source).  Only
the key lists of the procedure/function signature maps are ever consulted by
the completion code, so the maps are embedded as their key lists in
insertion order. -/
structure DbInfo where
  labels : List String
  relationshipTypes : List String
  procedureSignatures : List String
  functionSignatures : List String
  databaseNames : List String
  aliasNames : List String
  deriving DecidableEq, Repr

/-- The DbSchema record of server/src/dbSchema.ts: every catalog field is
optional. -/
structure DbSchema where
  procedureSignatures : Option (List String) := none
  functionSignatures : Option (List String) := none
  labels : Option (List String) := none
  relationshipTypes : Option (List String) := none
  databaseNames : Option (List String) := none
  aliasNames : Option (List String) := none
  deriving DecidableEq, Repr

/-- Modelled from the spec: "every field defaults to empty when absent"
(section 6, Schema Snapshot).  The defaulting site itself lives outside the
given sources, so it is modelled from those words. -/
def schemaToDbInfo (s : DbSchema) : DbInfo where
  labels := s.labels.getD []
  relationshipTypes := s.relationshipTypes.getD []
  procedureSignatures := s.procedureSignatures.getD []
  functionSignatures := s.functionSignatures.getD []
  databaseNames := s.databaseNames.getD []
  aliasNames := s.aliasNames.getD []

/-- A DbSchema with every absent field replaced by an explicitly empty one. -/
def fillDefaults (s : DbSchema) : DbSchema where
  labels := some (s.labels.getD [])
  relationshipTypes := some (s.relationshipTypes.getD [])
  procedureSignatures := some (s.procedureSignatures.getD [])
  functionSignatures := some (s.functionSignatures.getD [])
  databaseNames := some (s.databaseNames.getD [])
  aliasNames := some (s.aliasNames.getD [])

/-!
Rule-index and token-type constants of the generated parser
(CypherParser.RULE_... and the SPACE token type).  The generated parser is
outside the verified sources; the completion logic depends only on the
distinctness of these numbers, so arbitrary distinct values are fixed.
-/

def RULE_unescapedSymbolicNameString : Nat := 1
def RULE_escapedSymbolicNameString : Nat := 2
def RULE_stringLiteral : Nat := 3
def RULE_symbolicLabelNameString : Nat := 4
def RULE_symbolicAliasName : Nat := 5
def RULE_procedureName : Nat := 6
def RULE_functionName : Nat := 7
def RULE_relationshipPattern : Nat := 8
def RULE_nodePattern : Nat := 9
def RULE_labelExpression : Nat := 10
def RULE_createAlias : Nat := 11
def RULE_createDatabase : Nat := 12
def RULE_createCompositeDatabase : Nat := 13
def RULE_dropAlias : Nat := 14
def RULE_alterAlias : Nat := 15
def RULE_showAliases : Nat := 16
def SPACE : Nat := 17

/-- A candidate rule as reported by the grammar candidate collector: the
token index at which the rule's match began and the stack of enclosing rule
indices. -/
structure CandidateRule where
  startTokenIndex : Nat
  ruleList : List Nat
  deriving DecidableEq, Repr

/-- Follow-up information of a candidate token: the follow-up token indices
and whether the follow-up is optional. -/
structure FollowUpList where
  indexes : List Nat
  optional : Bool
  deriving DecidableEq, Repr

/-- The collector's output: rule entries (rule index with context) and token
entries (token index with follow-up information), in insertion order. -/
structure Candidates where
  rules : List (Nat × CandidateRule)
  tokens : List (Nat × FollowUpList)
  deriving DecidableEq, Repr

/-- labelCompletions of completionCoreCompletion. -/
def labelCompletions (dbInfo : DbInfo) : List CompletionItem :=
  dbInfo.labels.map fun labelName =>
    { label := labelName, kind := CompletionItemKind.TypeParameter }

/-- reltypeCompletions of completionCoreCompletion. -/
def reltypeCompletions (dbInfo : DbInfo) : List CompletionItem :=
  dbInfo.relationshipTypes.map fun relType =>
    { label := relType, kind := CompletionItemKind.TypeParameter }

/-- proceduresCompletions of completionCoreCompletion. -/
def proceduresCompletions (dbInfo : DbInfo) : List CompletionItem :=
  dbInfo.procedureSignatures.map fun procedureName =>
    { label := procedureName, kind := CompletionItemKind.Function }

/-- functionCompletions of completionCoreCompletion (computed by the source
and left unused on the rule-derived path). -/
def functionCompletions (dbInfo : DbInfo) : List CompletionItem :=
  dbInfo.functionSignatures.map fun functionName =>
    { label := functionName, kind := CompletionItemKind.Function }

/-- rulesCreatingNewAliasOrDb of completionCoreCompletion. -/
def rulesCreatingNewAliasOrDb : List Nat :=
  [RULE_createAlias, RULE_createDatabase, RULE_createCompositeDatabase]

/-- rulesThatOnlyAcceptAlias of completionCoreCompletion. -/
def rulesThatOnlyAcceptAlias : List Nat :=
  [RULE_dropAlias, RULE_alterAlias, RULE_showAliases]

/-- The per-candidate body of the rule flatMap inside
completionCoreCompletion: the contribution of one candidate rule, where
none plays the role of the source's null marker (filtered out downstream). -/
def ruleCandidateItems (tokens : List Token) (dbInfo : DbInfo)
    (ruleNumber : Nat) (candidateRule : CandidateRule) :
    Option (List CompletionItem) :=
  if ruleNumber == RULE_unescapedSymbolicNameString ||
      ruleNumber == RULE_symbolicLabelNameString then
    if candidateRule.ruleList.contains RULE_procedureName then
      some (proceduresCompletions dbInfo)
    else if candidateRule.ruleList.contains RULE_functionName then
      some (proceduresCompletions dbInfo)
    else if candidateRule.ruleList.contains RULE_relationshipPattern then
      some (reltypeCompletions dbInfo)
    else if candidateRule.ruleList.contains RULE_nodePattern then
      some (labelCompletions dbInfo)
    else if candidateRule.ruleList.contains RULE_labelExpression then
      some (reltypeCompletions dbInfo ++ labelCompletions dbInfo)
    else none
  else if ruleNumber == RULE_symbolicAliasName then
    if (match tokens[candidateRule.startTokenIndex + 1]? with
        | some nextToken => nextToken.type == SPACE
        | none => false) then
      none
    else if rulesCreatingNewAliasOrDb.any
        (fun rule => candidateRule.ruleList.contains rule) then
      none
    else if rulesThatOnlyAcceptAlias.any
        (fun rule => candidateRule.ruleList.contains rule) then
      some (dbInfo.aliasNames.map fun aliasName =>
        { label := aliasName, kind := CompletionItemKind.Value })
    else
      some ((dbInfo.databaseNames ++ dbInfo.aliasNames).map fun databaseName =>
        { label := databaseName, kind := CompletionItemKind.Value })
  else none

/-- The ruleCompletions list of completionCoreCompletion: the flatMap over
all candidate rules with the null contributions filtered out. -/
def ruleCompletionsOf (tokens : List Token) (dbInfo : DbInfo)
    (ruleEntries : List (Nat × CandidateRule)) : List CompletionItem :=
  ((ruleEntries.map fun entry =>
    ruleCandidateItems tokens dbInfo entry.1 entry.2).filterMap id).flatten

/-- The JS Array.join of token display names with a single space, with
absent names rendered as the empty string, exactly the behavior of the
source's map over tokenNames followed by join. -/
def joinSpace : List String → String
  | [] => ""
  | [s] => s
  | s :: rest => s ++ " " ++ joinSpace rest

/-- The per-token body of the token flatMap inside completionCoreCompletion:
the labels contributed by one candidate token. -/
def tokenCandidateLabels (tokenNames : Nat → Option String)
    (tokenNumber : Nat) (followUpList : FollowUpList) : List String :=
  let firstToken := tokenNames tokenNumber
  let followUpString :=
    joinSpace (followUpList.indexes.map fun i => (tokenNames i).getD "")
  match firstToken with
  | none => []
  | some ft =>
    if followUpString == "" then [ft]
    else
      let followUp := ft ++ " " ++ followUpString
      if followUpList.optional then [ft, followUp] else [followUp]

/-- The tokenCompletions list of completionCoreCompletion: every contributed
label as a Keyword item. -/
def tokenCompletionsOf (tokenNames : Nat → Option String)
    (tokenEntries : List (Nat × FollowUpList)) : List CompletionItem :=
  (tokenEntries.flatMap fun entry =>
    tokenCandidateLabels tokenNames entry.1 entry.2).map fun t =>
      { label := t, kind := CompletionItemKind.Keyword }

/-- The caret token index of completionCoreCompletion: one before the final
EOF token, or 0 when the stream holds only the EOF token. -/
def caretIndexOf (tokens : List Token) : Int :=
  if 1 < tokens.length then (tokens.length : Int) - 2 else 0

/-- completionCoreCompletion of server/src/autocompletion.ts.  The collector
invocation (antlr4-c3, configured with the preferred rules and ignored
tokens of the source) and the token-name table of server/src/lexerSymbols.ts
are external inputs and enter as the parameters collectCandidates and
tokenNames. -/
def completionCoreCompletion (tokenNames : Nat → Option String)
    (collectCandidates : Nat → Candidates) (tokens : List Token)
    (dbInfo : DbInfo) : List CompletionItem :=
  let caretIndex := caretIndexOf tokens
  if 0 ≤ caretIndex then
    let candidates := collectCandidates caretIndex.toNat
    ruleCompletionsOf tokens dbInfo candidates.rules ++
      tokenCompletionsOf tokenNames candidates.tokens
  else []

/-!
The structural fallback path.  Parse-tree nodes are classified by a closed
rule-kind tag (the source used instanceof checks against the generated
context classes; the design document, section 9, prescribes exactly this
tagged reimplementation).
-/

/-- The parse-tree rule kinds the structural fallback distinguishes. -/
inductive RuleKind where
  | LabelExpression4
  | LabelExpression4Is
  | NodePattern
  | RelationshipPattern
  | Expression2
  | ProcedureName
  | OtherRule
  deriving DecidableEq, Repr

/-- A parse-tree node as seen from below: the node itself followed by its
chain of ancestors, innermost first, each entry carrying the node's rule
kind and its covered source text.  The empty list plays the role of an
undefined node reference. -/
abbrev PNode := List (RuleKind × String)

/-- Search a chain of ancestors for the first entry satisfying the
predicate; the found node is returned together with its own ancestors. -/
def searchUp (chain : PNode) (pred : RuleKind → Bool) : PNode :=
  match chain with
  | [] => []
  | entry :: rest => if pred entry.1 then entry :: rest else searchUp rest pred

/-- Modelled from the spec: findParent of server/src/helpers.ts (absent from
the given sources) "walks the parent chain starting at the node's parent;
returns the first ancestor satisfying the predicate, or none if the root is
reached without a match.  Must not revisit the node itself" (section 4.1).
An undefined input node yields an undefined result. -/
def findParent (node : PNode) (pred : RuleKind → Bool) : PNode :=
  match node with
  | [] => []
  | _ :: ancestors => searchUp ancestors pred

/-- isDefined of server/src/helpers.ts over the embedded node references. -/
def isDefined (node : PNode) : Bool :=
  !node.isEmpty

/-- The getText of a parse-tree node: the source text covered by it. -/
def getText (node : PNode) : String :=
  match node with
  | [] => ""
  | entry :: _ => entry.2

/-- isLabel of server/src/autocompletion.ts. -/
def isLabel (k : RuleKind) : Bool :=
  k == RuleKind.LabelExpression4 || k == RuleKind.LabelExpression4Is

/-- inRelationshipType of server/src/autocompletion.ts. -/
def inRelationshipType (stopNode : PNode) : Bool :=
  isDefined (findParent (findParent stopNode isLabel)
    (fun p => p == RuleKind.RelationshipPattern))

/-- inNodeLabel of server/src/autocompletion.ts. -/
def inNodeLabel (stopNode : PNode) : Bool :=
  isDefined (findParent (findParent stopNode isLabel)
    (fun p => p == RuleKind.NodePattern))

/-- parentExpression of server/src/autocompletion.ts. -/
def parentExpression (stopNode : PNode) : PNode :=
  findParent stopNode (fun p => p == RuleKind.Expression2)

/-- inProcedureName of server/src/autocompletion.ts. -/
def inProcedureName (stopNode : PNode) : Bool :=
  isDefined (findParent stopNode (fun p => p == RuleKind.ProcedureName))

/-- A parse tree: a rule-kind tag, the covered text, and the ordered
children. -/
inductive PTree where
  | node (kind : RuleKind) (text : String) (children : List PTree)

mutual

/-- The deepest node reached by always descending into the last child,
returned together with its ancestor chain. -/
def stopPath : PTree → PNode
  | .node k txt cs => stopPathChildren k txt cs

/-- Helper of stopPath: descend into the last child of the list, or stop at
the current node when it has no children. -/
def stopPathChildren (k : RuleKind) (txt : String) : List PTree → PNode
  | [] => [(k, txt)]
  | [c] => stopPath c ++ [(k, txt)]
  | _ :: c :: cs => stopPathChildren k txt (c :: cs)

end

/-- Modelled from the spec: findStopNode of server/src/helpers.ts (absent
from the given sources) "locates the parse-tree node whose token span ends
at (or nearest before) the caret — effectively where parsing stopped paying
attention" (section 4.1).  For a tree parsed from the text up to the caret
that is the deepest node reached by always descending into the last child;
the result is returned together with its ancestor chain. -/
def findStopNode (tree : PTree) : PNode :=
  stopPath tree

/-- A parsing result as consumed by the completion engine: the token stream
and the parse tree. -/
structure EnrichedParsingResult where
  tokens : List Token
  result : PTree

/-- autocompleteLabels of server/src/autocompletion.ts. -/
def autocompleteLabels (dbInfo : DbInfo) : List CompletionItem :=
  dbInfo.labels.map fun t =>
    { label := t, kind := CompletionItemKind.TypeParameter }

/-- autocompleteRelTypes of server/src/autocompletion.ts. -/
def autocompleteRelTypes (dbInfo : DbInfo) : List CompletionItem :=
  dbInfo.relationshipTypes.map fun t =>
    { label := t, kind := CompletionItemKind.TypeParameter }

/-- The JS String.prototype.startsWith over the embedded strings: a
character-level, case-sensitive prefix test. -/
def strStartsWith (s p : String) : Bool :=
  p.data.isPrefixOf s.data

/-- autoCompleteFunctions of server/src/autocompletion.ts: function-catalog
keys of which the expression's text is a prefix. -/
def autoCompleteFunctions (dbInfo : DbInfo) (expr : PNode) :
    List CompletionItem :=
  (dbInfo.functionSignatures.filter fun functionName =>
    strStartsWith functionName (getText expr)).map fun t =>
      { label := t, kind := CompletionItemKind.Function }

/-- autoCompleteProcNames of server/src/autocompletion.ts. -/
def autoCompleteProcNames (dbInfo : DbInfo) : List CompletionItem :=
  dbInfo.procedureSignatures.map fun t =>
    { label := t, kind := CompletionItemKind.Function }

/-- The default token used by total list indexing in the embedding; the
indices at which it would be consulted are unreachable under the guards of
the source. -/
def defaultToken : Token where
  type := 0
  text := ""

/-- autoCompleteStructurally of server/src/autocompletion.ts.  none embeds
the source's undefined (the no-opinion sentinel), some [] its explicit empty
list. -/
def autoCompleteStructurally (parsingResult : EnrichedParsingResult)
    (dbInfo : DbInfo) : Option (List CompletionItem) :=
  let tokens := parsingResult.tokens
  let tree := parsingResult.result
  let lastTokenIndex : Int := (tokens.length : Int) - 2
  if lastTokenIndex ≤ 0 then
    none
  else
    let lastToken := tokens.getD lastTokenIndex.toNat defaultToken
    let eof := tokens.getD (lastTokenIndex.toNat + 1) defaultToken
    if eof.text ≠ "<EOF>" then
      some []
    else if lastToken.type == SPACE then
      none
    else
      let stopNode := findStopNode tree
      if inRelationshipType stopNode then
        some (autocompleteRelTypes dbInfo)
      else
        let expr := parentExpression stopNode
        if isDefined expr then
          some (autoCompleteFunctions dbInfo expr)
        else if inProcedureName stopNode then
          some (autoCompleteProcNames dbInfo)
        else
          none

/-- autoCompleteStructurallyAddingChar of server/src/autocompletion.ts: the
filler-character variant.  The parser wrapper is the external parse
provider and enters as the parameter parse. -/
def autoCompleteStructurallyAddingChar
    (parse : String → EnrichedParsingResult) (textUntilPosition : String)
    (dbInfo : DbInfo) : Option (List CompletionItem) :=
  let parsingResult := parse (textUntilPosition ++ "x")
  let tokens := parsingResult.tokens
  let tree := parsingResult.result
  let lastTokenIndex : Int := (tokens.length : Int) - 2
  if lastTokenIndex ≤ 0 then
    none
  else
    let lastToken := tokens.getD lastTokenIndex.toNat defaultToken
    if lastToken.type == SPACE then
      none
    else
      let stopNode := findStopNode tree
      if inRelationshipType stopNode then
        some (autocompleteRelTypes dbInfo)
      else
        none

/-- A caret position: 0-based line and column. -/
structure Position where
  line : Nat
  column : Nat
  deriving DecidableEq, Repr

/-- Split a character list at newline characters. -/
def splitLinesAux (acc : List Char) : List Char → List (List Char)
  | [] => [acc.reverse]
  | c :: rest =>
    if c = '\n' then acc.reverse :: splitLinesAux [] rest
    else splitLinesAux (c :: acc) rest

/-- Join lines back with newline characters. -/
def joinLines : List (List Char) → List Char
  | [] => []
  | [l] => l
  | l :: rest => l ++ '\n' :: joinLines rest

/-- Modelled from the spec: the text up to the caret, computed from the
document text and the 0-based caret position as the editor layer does —
the lines before the caret line in full, the caret line cut at the caret
column. -/
def textUntilPosition (text : String) (pos : Position) : String :=
  let lines := splitLinesAux [] text.data
  let beforeLines := lines.take pos.line
  let currentLine := (lines.getD pos.line []).take pos.column
  String.mk (joinLines (beforeLines ++ [currentLine]))

/-- Modelled from the spec: the Completion Engine entry point
resolveCompletions (autoCompleteQuery in the repository, absent from the
given sources), which "composes 1-5 into a single resolveCompletions
operation" (section 2): the structural fallback resolver is consulted
first, then its filler-character variant, and the grammar-candidate path
answers when both return the no-opinion sentinel.  The external parse
provider, grammar candidate collector and token-name table enter as
parameters. -/
def resolveCompletions (parse : String → EnrichedParsingResult)
    (collect : EnrichedParsingResult → Nat → Candidates)
    (tokenNames : Nat → Option String) (documentText : String)
    (pos : Position) (schema : DbSchema) : List CompletionItem :=
  let textUntil := textUntilPosition documentText pos
  let parsingResult := parse textUntil
  let dbInfo := schemaToDbInfo schema
  ((autoCompleteStructurally parsingResult dbInfo).orElse fun _ =>
    autoCompleteStructurallyAddingChar parse textUntil dbInfo).getD
    (completionCoreCompletion tokenNames (collect parsingResult)
      parsingResult.tokens dbInfo)

/-!
Spec-side predicates: the dispatch conditions of the alias/database
heuristic as the design document words them.
-/

/-- Spec side: the token immediately following the rule's start-token index
is a whitespace token. -/
def nextTokenIsWhitespace (tokens : List Token) (startTokenIndex : Nat) : Bool :=
  match tokens[startTokenIndex + 1]? with
  | some nextToken => nextToken.type == SPACE
  | none => false

/-- Spec side: the enclosing-rule stack contains a creation rule
(create-alias, create-database, create-composite-database). -/
def stackHasCreationRule (candidateRule : CandidateRule) : Bool :=
  candidateRule.ruleList.contains RULE_createAlias ||
  candidateRule.ruleList.contains RULE_createDatabase ||
  candidateRule.ruleList.contains RULE_createCompositeDatabase

/-- Spec side: the enclosing-rule stack contains an alias-only rule
(drop-alias, alter-alias, show-aliases). -/
def stackHasAliasOnlyRule (candidateRule : CandidateRule) : Bool :=
  candidateRule.ruleList.contains RULE_dropAlias ||
  candidateRule.ruleList.contains RULE_alterAlias ||
  candidateRule.ruleList.contains RULE_showAliases

/-- Claim C1: for a symbolicAliasName candidate the classifier applies,
first match wins: next token whitespace — no contribution; stack holds a
creation rule — no contribution; stack holds an alias-only rule — one Value
item per known alias name; otherwise one Value item per name in the
database-name list concatenated with the alias-name list. -/
theorem claim_C1_aliasNameDispatch (tokens : List Token) (dbInfo : DbInfo)
    (candidateRule : CandidateRule) :
    ruleCandidateItems tokens dbInfo RULE_symbolicAliasName candidateRule =
      if nextTokenIsWhitespace tokens candidateRule.startTokenIndex then none
      else if stackHasCreationRule candidateRule then none
      else if stackHasAliasOnlyRule candidateRule then
        some (dbInfo.aliasNames.map fun aliasName =>
          { label := aliasName, kind := CompletionItemKind.Value })
      else
        some ((dbInfo.databaseNames ++ dbInfo.aliasNames).map fun databaseName =>
          { label := databaseName, kind := CompletionItemKind.Value }) := by
  unfold ruleCandidateItems nextTokenIsWhitespace stackHasCreationRule
    stackHasAliasOnlyRule
  simp only [rulesCreatingNewAliasOrDb, rulesThatOnlyAcceptAlias,
    List.any_cons, List.any_nil, Bool.or_false, Bool.or_assoc,
    RULE_symbolicAliasName, RULE_unescapedSymbolicNameString,
    RULE_symbolicLabelNameString]
  norm_num

/-- Claim C2: an unescaped-symbolic-name-string or label-name-string
candidate whose enclosing stack contains the procedure-name or the
function-name rule contributes exactly one Function item per known
procedure name, and the contribution is insensitive to the function
catalog. -/
theorem claim_C2_procedureFunctionNames (tokens : List Token)
    (dbInfo : DbInfo) (ruleNumber : Nat) (candidateRule : CandidateRule)
    (hrule : ruleNumber = RULE_unescapedSymbolicNameString ∨
      ruleNumber = RULE_symbolicLabelNameString)
    (hstack : candidateRule.ruleList.contains RULE_procedureName = true ∨
      candidateRule.ruleList.contains RULE_functionName = true) :
    ruleCandidateItems tokens dbInfo ruleNumber candidateRule =
      some (dbInfo.procedureSignatures.map fun procedureName =>
        { label := procedureName, kind := CompletionItemKind.Function }) ∧
    ∀ altFunctionCatalog : List String,
      ruleCandidateItems tokens
          { dbInfo with functionSignatures := altFunctionCatalog }
          ruleNumber candidateRule =
        ruleCandidateItems tokens dbInfo ruleNumber candidateRule := by
  have houter : (ruleNumber == RULE_unescapedSymbolicNameString ||
      ruleNumber == RULE_symbolicLabelNameString) = true := by
    rcases hrule with h | h <;> simp [h]
  have hmain : ∀ db2 : DbInfo,
      ruleCandidateItems tokens db2 ruleNumber candidateRule =
        some (db2.procedureSignatures.map fun procedureName =>
          { label := procedureName, kind := CompletionItemKind.Function }) := by
    intro db2
    unfold ruleCandidateItems
    by_cases hp : candidateRule.ruleList.contains RULE_procedureName = true
    · rw [if_pos houter, if_pos hp]
      rfl
    · rcases hstack with h | h
      · exact absurd h hp
      · rw [if_pos houter, if_neg hp, if_pos h]
        rfl
  refine ⟨hmain dbInfo, fun altFunctionCatalog => ?_⟩
  rw [hmain dbInfo, hmain { dbInfo with functionSignatures := altFunctionCatalog }]

/-- Concrete instance of claim C2: a function-name context reuses the
procedure catalog and ignores the function catalog. -/
theorem claim_C2_witness :
    ruleCandidateItems [] (DbInfo.mk [] [] ["apoc.load"] ["onlyFn"] [] [])
      RULE_symbolicLabelNameString
      (CandidateRule.mk 0 [RULE_functionName]) =
      some [{ label := "apoc.load", kind := CompletionItemKind.Function }] :=
  ((claim_C2_procedureFunctionNames [] (DbInfo.mk [] [] ["apoc.load"] ["onlyFn"] [] [])
    RULE_symbolicLabelNameString (CandidateRule.mk 0 [RULE_functionName])
    (Or.inr rfl) (Or.inr (by decide))).1).trans (by decide)

/-- A nonempty string has positive length. -/
lemma length_pos_of_ne_empty (s : String) (h : s ≠ "") : 0 < s.length := by
  cases s with
  | mk data =>
    cases data with
    | nil => exact absurd rfl h
    | cons c cs => simp [String.length]

/-- joinSpace of a nonempty list of nonempty strings is nonempty. -/
lemma joinSpace_ne_empty :
    ∀ l : List String, l ≠ [] → (∀ s ∈ l, s ≠ "") → joinSpace l ≠ ""
  | [], h, _ => absurd rfl h
  | [s], _, hall => by
      simpa [joinSpace] using hall s (by simp)
  | s :: t :: rest, _, hall => by
      have hs : s ≠ "" := hall s (by simp)
      intro hcontra
      simp only [joinSpace] at hcontra
      have hlen := congrArg String.length hcontra
      rw [String.length_append, String.length_append] at hlen
      have h1 : (" ").length = 1 := rfl
      have h0 : ("" : String).length = 0 := rfl
      rw [h1, h0] at hlen
      have := length_pos_of_ne_empty s hs
      omega

/-- The combined keyword label is strictly longer than the bare display
name, hence different from it. -/
lemma combined_ne_bare (displayName followUpString : String) :
    displayName ++ " " ++ followUpString ≠ displayName := by
  intro hcontra
  have hlen := congrArg String.length hcontra
  rw [String.length_append, String.length_append] at hlen
  have h1 : (" ").length = 1 := rfl
  rw [h1] at hlen
  omega

/-- Claim C3: per candidate token — no display name: no labels; display
name and no follow-up: exactly the bare display name; mandatory follow-up:
exactly the combined label and never the bare display name; optional
follow-up: exactly the bare and the combined label.  Every contributed
label becomes a Keyword completion item. -/
theorem claim_C3_tokenLabelFormatter (tokenNames : Nat → Option String)
    (tokenNumber : Nat) (followUpList : FollowUpList)
    (tokenEntries : List (Nat × FollowUpList)) :
    (tokenNames tokenNumber = none →
      tokenCandidateLabels tokenNames tokenNumber followUpList = []) ∧
    (∀ displayName : String, tokenNames tokenNumber = some displayName →
      (followUpList.indexes = [] →
        tokenCandidateLabels tokenNames tokenNumber followUpList =
          [displayName]) ∧
      (followUpList.indexes ≠ [] →
        (∀ i ∈ followUpList.indexes, (tokenNames i).getD "" ≠ "") →
        (followUpList.optional = false →
          tokenCandidateLabels tokenNames tokenNumber followUpList =
            [displayName ++ " " ++
              joinSpace (followUpList.indexes.map fun i =>
                (tokenNames i).getD "")] ∧
          displayName ∉
            tokenCandidateLabels tokenNames tokenNumber followUpList) ∧
        (followUpList.optional = true →
          tokenCandidateLabels tokenNames tokenNumber followUpList =
            [displayName,
             displayName ++ " " ++
              joinSpace (followUpList.indexes.map fun i =>
                (tokenNames i).getD "")]))) ∧
    (∀ item ∈ tokenCompletionsOf tokenNames tokenEntries,
      item.kind = CompletionItemKind.Keyword) := by
  refine ⟨?_, ?_, ?_⟩
  · intro h
    simp [tokenCandidateLabels, h]
  · intro displayName hsome
    constructor
    · intro hempty
      simp [tokenCandidateLabels, hsome, hempty, joinSpace]
    · intro hne hnames
      have hjoin : joinSpace (followUpList.indexes.map fun i =>
          (tokenNames i).getD "") ≠ "" := by
        apply joinSpace_ne_empty
        · simpa using hne
        · intro s hs
          obtain ⟨i, hi, rfl⟩ := List.mem_map.mp hs
          exact hnames i hi
      have hbeq : (joinSpace (followUpList.indexes.map fun i =>
          (tokenNames i).getD "") == "") = false := by
        simpa using hjoin
      constructor
      · intro hopt
        have hlabels : tokenCandidateLabels tokenNames tokenNumber followUpList =
            [displayName ++ " " ++
              joinSpace (followUpList.indexes.map fun i =>
                (tokenNames i).getD "")] := by
          simp [tokenCandidateLabels, hsome, hbeq, hopt]
        refine ⟨hlabels, ?_⟩
        rw [hlabels]
        simpa using (combined_ne_bare displayName _).symm
      · intro hopt
        simp [tokenCandidateLabels, hsome, hbeq, hopt]
  · intro item hitem
    simp only [tokenCompletionsOf, List.mem_map] at hitem
    obtain ⟨t, _, rfl⟩ := hitem
    rfl

/-- The token-name table used by the concrete instance of claim C3. -/
def tnC3 : Nat → Option String := fun n =>
  if n = 0 then some "OPTIONAL" else if n = 1 then some "MATCH" else none

/-- Concrete instance of claim C3: a mandatory follow-up yields only the
combined label, never the bare display name. -/
theorem claim_C3_witness :
    tokenCandidateLabels tnC3 0 (FollowUpList.mk [1] false) =
      ["OPTIONAL MATCH"] ∧
    "OPTIONAL" ∉ tokenCandidateLabels tnC3 0 (FollowUpList.mk [1] false) := by
  have h := ((claim_C3_tokenLabelFormatter tnC3 0 (FollowUpList.mk [1] false)
      []).2.1 "OPTIONAL" (by decide)).2 (by decide)
      (by intro i hi; simp only [List.mem_singleton] at hi; subst hi; decide)
  have h2 := h.1 rfl
  exact ⟨h2.1.trans (by decide), h2.2⟩

/-- Membership in a constant-kind map fixes the item's kind. -/
lemma kind_of_mem_map (l : List String) (K : CompletionItemKind)
    (item : CompletionItem)
    (h : item ∈ l.map fun s => { label := s, kind := K }) : item.kind = K := by
  obtain ⟨s, _, rfl⟩ := List.mem_map.mp h
  rfl

/-- Every item contributed by a candidate rule carries one of the
rule-derived kinds. -/
lemma ruleCandidateItems_kinds (tokens : List Token) (dbInfo : DbInfo)
    (ruleNumber : Nat) (candidateRule : CandidateRule)
    (itemList : List CompletionItem)
    (h : ruleCandidateItems tokens dbInfo ruleNumber candidateRule =
      some itemList) :
    ∀ item ∈ itemList,
      item.kind = CompletionItemKind.Function ∨
      item.kind = CompletionItemKind.TypeParameter ∨
      item.kind = CompletionItemKind.Value := by
  intro item hitem
  unfold ruleCandidateItems at h
  split_ifs at h <;>
    first
      | exact Option.noConfusion h
      | (injection h with h
         subst h
         first
           | exact Or.inl (kind_of_mem_map _ _ _ hitem)
           | exact Or.inr (Or.inl (kind_of_mem_map _ _ _ hitem))
           | exact Or.inr (Or.inr (kind_of_mem_map _ _ _ hitem))
           | (rcases List.mem_append.mp hitem with hmem | hmem <;>
               exact Or.inr (Or.inl (kind_of_mem_map _ _ _ hmem))))

/-- The caret index of the grammar-candidate path is never negative. -/
lemma caretIndexOf_nonneg (tokens : List Token) : 0 ≤ caretIndexOf tokens := by
  unfold caretIndexOf
  split_ifs with h
  · omega
  · omega

/-- Claim C6: the grammar-candidate path returns the rule-derived items
(kinds Function, TypeParameter, Value) concatenated ahead of all
token-derived Keyword items, with no deduplication or prefix-filtering step
in between. -/
theorem claim_C6_ordering (tokenNames : Nat → Option String)
    (collectCandidates : Nat → Candidates) (tokens : List Token)
    (dbInfo : DbInfo) :
    completionCoreCompletion tokenNames collectCandidates tokens dbInfo =
      ruleCompletionsOf tokens dbInfo
          (collectCandidates (caretIndexOf tokens).toNat).rules ++
        tokenCompletionsOf tokenNames
          (collectCandidates (caretIndexOf tokens).toNat).tokens ∧
    (∀ item ∈ ruleCompletionsOf tokens dbInfo
        (collectCandidates (caretIndexOf tokens).toNat).rules,
      item.kind = CompletionItemKind.Function ∨
      item.kind = CompletionItemKind.TypeParameter ∨
      item.kind = CompletionItemKind.Value) ∧
    (∀ item ∈ tokenCompletionsOf tokenNames
        (collectCandidates (caretIndexOf tokens).toNat).tokens,
      item.kind = CompletionItemKind.Keyword) := by
  refine ⟨?_, ?_, ?_⟩
  · unfold completionCoreCompletion
    rw [if_pos (caretIndexOf_nonneg tokens)]
  · intro item hitem
    simp only [ruleCompletionsOf, List.mem_flatten, List.mem_filterMap,
      List.mem_map, id] at hitem
    obtain ⟨l, ⟨o, ⟨entry, hentry, rfl⟩, ho⟩, hmem⟩ := hitem
    exact ruleCandidateItems_kinds tokens dbInfo entry.1 entry.2 l ho item hmem
  · intro item hitem
    simp only [tokenCompletionsOf, List.mem_map] at hitem
    obtain ⟨t, _, rfl⟩ := hitem
    rfl

/-- Concrete instance of claim C6: the alias Value item produced by a
drop-alias candidate appears in the rule-derived prefix and has a
rule-derived kind. -/
theorem claim_C6_witness :
    (completionCoreCompletion (fun _ => none)
        (fun _ => Candidates.mk
          [(RULE_symbolicAliasName, CandidateRule.mk 0 [RULE_dropAlias])] [])
        [] (DbInfo.mk [] [] [] [] [] ["a1"]) =
      ruleCompletionsOf [] (DbInfo.mk [] [] [] [] [] ["a1"])
          [(RULE_symbolicAliasName, CandidateRule.mk 0 [RULE_dropAlias])] ++
        tokenCompletionsOf (fun _ => none) []) ∧
    (({ label := "a1", kind := CompletionItemKind.Value } :
        CompletionItem).kind = CompletionItemKind.Function ∨
      ({ label := "a1", kind := CompletionItemKind.Value } :
        CompletionItem).kind = CompletionItemKind.TypeParameter ∨
      ({ label := "a1", kind := CompletionItemKind.Value } :
        CompletionItem).kind = CompletionItemKind.Value) :=
  ⟨(claim_C6_ordering (fun _ => none)
      (fun _ => Candidates.mk
        [(RULE_symbolicAliasName, CandidateRule.mk 0 [RULE_dropAlias])] [])
      [] (DbInfo.mk [] [] [] [] [] ["a1"])).1,
   (claim_C6_ordering (fun _ => none)
      (fun _ => Candidates.mk
        [(RULE_symbolicAliasName, CandidateRule.mk 0 [RULE_dropAlias])] [])
      [] (DbInfo.mk [] [] [] [] [] ["a1"])).2.1
      { label := "a1", kind := CompletionItemKind.Value } (by decide)⟩

/-- The two-token parsing result refuting claim C4 as stated: exactly one
real token besides an end marker whose text is not the expected
end-of-stream marker. -/
def prC4 : EnrichedParsingResult where
  tokens := [Token.mk 1 "RETURN", Token.mk 2 "broken"]
  result := PTree.node RuleKind.OtherRule "" []

/-- Counterexample to claim C4 as stated: with one real token and a
mismatching end-marker text, the stream excluding the marker is not empty,
so per the claim the mismatch check should yield the explicit empty list;
the code returns the no-opinion sentinel instead. -/
theorem claim_C4_counterexample :
    prC4.tokens.length = 2 ∧
    (prC4.tokens.getD (prC4.tokens.length - 1) defaultToken).text ≠ "<EOF>" ∧
    autoCompleteStructurally prC4 (DbInfo.mk [] [] [] [] [] []) = none ∧
    autoCompleteStructurally prC4 (DbInfo.mk [] [] [] [] [] []) ≠ some [] := by
  refine ⟨rfl, by decide, by decide, by decide⟩

/-- Claim C4 as amended: the structural fallback returns the no-opinion
sentinel whenever the stream holds at most one token besides the end
marker (not only when it is empty); past that guard it returns the
explicit empty list when the end marker's text differs from the expected
end-of-stream marker, and the no-opinion sentinel when the last real token
is a whitespace token. -/
theorem claim_C4_degradation (pr : EnrichedParsingResult) (dbInfo : DbInfo) :
    (pr.tokens.length ≤ 2 → autoCompleteStructurally pr dbInfo = none) ∧
    (2 < pr.tokens.length →
      (pr.tokens.getD (pr.tokens.length - 1) defaultToken).text ≠ "<EOF>" →
      autoCompleteStructurally pr dbInfo = some []) ∧
    (2 < pr.tokens.length →
      (pr.tokens.getD (pr.tokens.length - 1) defaultToken).text = "<EOF>" →
      (pr.tokens.getD (pr.tokens.length - 2) defaultToken).type = SPACE →
      autoCompleteStructurally pr dbInfo = none) := by
  refine ⟨?_, ?_, ?_⟩
  · intro hle
    simp only [autoCompleteStructurally]
    rw [if_pos (by omega : (pr.tokens.length : Int) - 2 ≤ 0)]
  · intro hgt heof
    simp only [autoCompleteStructurally]
    rw [if_neg (by omega : ¬ (pr.tokens.length : Int) - 2 ≤ 0)]
    have hidx : ((pr.tokens.length : Int) - 2).toNat + 1 =
        pr.tokens.length - 1 := by omega
    rw [hidx, if_pos heof]
  · intro hgt heof hspace
    simp only [autoCompleteStructurally]
    rw [if_neg (by omega : ¬ (pr.tokens.length : Int) - 2 ≤ 0)]
    have hidx : ((pr.tokens.length : Int) - 2).toNat + 1 =
        pr.tokens.length - 1 := by omega
    have hidx2 : ((pr.tokens.length : Int) - 2).toNat =
        pr.tokens.length - 2 := by omega
    rw [hidx, hidx2, if_neg (fun hc => hc heof)]
    rw [if_pos (show
      ((pr.tokens.getD (pr.tokens.length - 2) defaultToken).type == SPACE) = true
      by simpa using hspace)]

/-- Concrete instances of the amended claim C4: all three degradation
branches evaluated. -/
theorem claim_C4_witness :
    autoCompleteStructurally
      (EnrichedParsingResult.mk [Token.mk 1 "M"]
        (PTree.node RuleKind.OtherRule "" []))
      (DbInfo.mk [] [] [] [] [] []) = none ∧
    autoCompleteStructurally
      (EnrichedParsingResult.mk
        [Token.mk 1 "RETURN", Token.mk 2 "n", Token.mk 3 "oops"]
        (PTree.node RuleKind.OtherRule "" []))
      (DbInfo.mk [] [] [] [] [] []) = some [] ∧
    autoCompleteStructurally
      (EnrichedParsingResult.mk
        [Token.mk 1 "RETURN", Token.mk SPACE " ", Token.mk 0 "<EOF>"]
        (PTree.node RuleKind.OtherRule "" []))
      (DbInfo.mk [] [] [] [] [] []) = none := by
  refine ⟨?_, ?_, ?_⟩
  · exact (claim_C4_degradation
      (EnrichedParsingResult.mk [Token.mk 1 "M"]
        (PTree.node RuleKind.OtherRule "" []))
      (DbInfo.mk [] [] [] [] [] [])).1 (by decide)
  · exact (claim_C4_degradation
      (EnrichedParsingResult.mk
        [Token.mk 1 "RETURN", Token.mk 2 "n", Token.mk 3 "oops"]
        (PTree.node RuleKind.OtherRule "" []))
      (DbInfo.mk [] [] [] [] [] [])).2.1 (by decide) (by decide)
  · exact (claim_C4_degradation
      (EnrichedParsingResult.mk
        [Token.mk 1 "RETURN", Token.mk SPACE " ", Token.mk 0 "<EOF>"]
        (PTree.node RuleKind.OtherRule "" []))
      (DbInfo.mk [] [] [] [] [] [])).2.2 (by decide) (by decide) (by decide)

/-- Claim C10: a stream holding at most one token besides the end marker
makes both structural resolvers return the no-opinion sentinel, whatever
the token contents — so neither the end-marker-text check nor the
whitespace check is consulted there. -/
theorem claim_C10_shortStream (pr : EnrichedParsingResult) (dbInfo : DbInfo)
    (parse : String → EnrichedParsingResult) (textUntilPos : String)
    (dbInfo2 : DbInfo)
    (h1 : (pr.tokens.length : Int) - 2 ≤ 0)
    (h2 : ((parse (textUntilPos ++ "x")).tokens.length : Int) - 2 ≤ 0) :
    autoCompleteStructurally pr dbInfo = none ∧
    autoCompleteStructurallyAddingChar parse textUntilPos dbInfo2 = none := by
  constructor
  · simp only [autoCompleteStructurally]
    rw [if_pos h1]
  · simp only [autoCompleteStructurallyAddingChar]
    rw [if_pos h2]

/-- Concrete instance of claim C10: a single real token with a mismatching
end-marker text still yields the no-opinion sentinel on both paths. -/
theorem claim_C10_witness :
    autoCompleteStructurally
      (EnrichedParsingResult.mk [Token.mk 1 "RETURN", Token.mk 2 "oops"]
        (PTree.node RuleKind.OtherRule "" []))
      (DbInfo.mk [] [] [] [] [] []) = none ∧
    autoCompleteStructurallyAddingChar
      (fun _ => EnrichedParsingResult.mk
        [Token.mk 1 "RETURN", Token.mk 2 "oops"]
        (PTree.node RuleKind.OtherRule "" []))
      "RETURN" (DbInfo.mk [] [] [] [] [] []) = none :=
  claim_C10_shortStream
    (EnrichedParsingResult.mk [Token.mk 1 "RETURN", Token.mk 2 "oops"]
      (PTree.node RuleKind.OtherRule "" []))
    (DbInfo.mk [] [] [] [] [] [])
    (fun _ => EnrichedParsingResult.mk
      [Token.mk 1 "RETURN", Token.mk 2 "oops"]
      (PTree.node RuleKind.OtherRule "" []))
    "RETURN" (DbInfo.mk [] [] [] [] [] []) (by decide) (by decide)

/-- Claim C5: past the degradation checks the structural fallback
classifies the stop node by ancestry, in order: relationship-type
position, nearest enclosing expression (function names filtered by
case-sensitive prefix of the expression's text), procedure-name position,
otherwise no opinion. -/
theorem claim_C5_structuralDispatch (pr : EnrichedParsingResult)
    (dbInfo : DbInfo)
    (hgt : 2 < pr.tokens.length)
    (heof : (pr.tokens.getD (pr.tokens.length - 1) defaultToken).text = "<EOF>")
    (hspace : (pr.tokens.getD (pr.tokens.length - 2) defaultToken).type ≠ SPACE) :
    (inRelationshipType (findStopNode pr.result) = true →
      autoCompleteStructurally pr dbInfo =
        some (dbInfo.relationshipTypes.map fun t =>
          { label := t, kind := CompletionItemKind.TypeParameter })) ∧
    (inRelationshipType (findStopNode pr.result) = false →
      isDefined (parentExpression (findStopNode pr.result)) = true →
      autoCompleteStructurally pr dbInfo =
        some ((dbInfo.functionSignatures.filter fun functionName =>
          strStartsWith functionName
            (getText (parentExpression (findStopNode pr.result)))).map
          fun t => { label := t, kind := CompletionItemKind.Function })) ∧
    (inRelationshipType (findStopNode pr.result) = false →
      isDefined (parentExpression (findStopNode pr.result)) = false →
      inProcedureName (findStopNode pr.result) = true →
      autoCompleteStructurally pr dbInfo =
        some (dbInfo.procedureSignatures.map fun t =>
          { label := t, kind := CompletionItemKind.Function })) ∧
    (inRelationshipType (findStopNode pr.result) = false →
      isDefined (parentExpression (findStopNode pr.result)) = false →
      inProcedureName (findStopNode pr.result) = false →
      autoCompleteStructurally pr dbInfo = none) := by
  have hbase : autoCompleteStructurally pr dbInfo =
      (if inRelationshipType (findStopNode pr.result) then
        some (autocompleteRelTypes dbInfo)
      else if isDefined (parentExpression (findStopNode pr.result)) then
        some (autoCompleteFunctions dbInfo
          (parentExpression (findStopNode pr.result)))
      else if inProcedureName (findStopNode pr.result) then
        some (autoCompleteProcNames dbInfo)
      else none) := by
    simp only [autoCompleteStructurally]
    rw [if_neg (by omega : ¬ (pr.tokens.length : Int) - 2 ≤ 0)]
    have hidx : ((pr.tokens.length : Int) - 2).toNat + 1 =
        pr.tokens.length - 1 := by omega
    have hidx2 : ((pr.tokens.length : Int) - 2).toNat =
        pr.tokens.length - 2 := by omega
    rw [hidx, hidx2, if_neg (fun hc => hc heof)]
    rw [if_neg (show
      ¬ ((pr.tokens.getD (pr.tokens.length - 2) defaultToken).type == SPACE) = true
      by simpa using hspace)]
  refine ⟨?_, ?_, ?_, ?_⟩
  · intro hrel
    rw [hbase, if_pos hrel]
    rfl
  · intro hrel hexpr
    rw [hbase, if_neg (by simp [hrel]), if_pos hexpr]
    rfl
  · intro hrel hexpr hproc
    rw [hbase, if_neg (by simp [hrel]), if_neg (by simp [hexpr]),
      if_pos hproc]
    rfl
  · intro hrel hexpr hproc
    rw [hbase, if_neg (by simp [hrel]), if_neg (by simp [hexpr]),
      if_neg (by simp [hproc])]

/-- The token stream shared by the concrete instances of claim C5. -/
def toksW5 : List Token :=
  [Token.mk 1 "CALL", Token.mk 2 "x", Token.mk 0 "<EOF>"]

/-- The catalogs used by the concrete instances of claim C5. -/
def dbW5 : DbInfo :=
  DbInfo.mk [] ["KNOWS"] ["apoc.load"] ["db.info", "foo.bar"] [] []

/-- Concrete instances of claim C5: all four ancestry branches evaluated. -/
theorem claim_C5_witness :
    autoCompleteStructurally
      (EnrichedParsingResult.mk toksW5
        (PTree.node RuleKind.RelationshipPattern ""
          [PTree.node RuleKind.LabelExpression4 ""
            [PTree.node RuleKind.OtherRule "" []]])) dbW5 =
      some [{ label := "KNOWS", kind := CompletionItemKind.TypeParameter }] ∧
    autoCompleteStructurally
      (EnrichedParsingResult.mk toksW5
        (PTree.node RuleKind.Expression2 "db"
          [PTree.node RuleKind.OtherRule "db" []])) dbW5 =
      some [{ label := "db.info", kind := CompletionItemKind.Function }] ∧
    autoCompleteStructurally
      (EnrichedParsingResult.mk toksW5
        (PTree.node RuleKind.ProcedureName "apoc"
          [PTree.node RuleKind.OtherRule "apoc" []])) dbW5 =
      some [{ label := "apoc.load", kind := CompletionItemKind.Function }] ∧
    autoCompleteStructurally
      (EnrichedParsingResult.mk toksW5
        (PTree.node RuleKind.OtherRule ""
          [PTree.node RuleKind.OtherRule "" []])) dbW5 = none := by
  refine ⟨?_, ?_, ?_, ?_⟩
  · exact ((claim_C5_structuralDispatch
      (EnrichedParsingResult.mk toksW5
        (PTree.node RuleKind.RelationshipPattern ""
          [PTree.node RuleKind.LabelExpression4 ""
            [PTree.node RuleKind.OtherRule "" []]])) dbW5
      (by decide) (by decide) (by decide)).1 (by decide)).trans (by decide)
  · exact (((claim_C5_structuralDispatch
      (EnrichedParsingResult.mk toksW5
        (PTree.node RuleKind.Expression2 "db"
          [PTree.node RuleKind.OtherRule "db" []])) dbW5
      (by decide) (by decide) (by decide)).2.1 (by decide)
      (by decide))).trans (by decide)
  · exact (((claim_C5_structuralDispatch
      (EnrichedParsingResult.mk toksW5
        (PTree.node RuleKind.ProcedureName "apoc"
          [PTree.node RuleKind.OtherRule "apoc" []])) dbW5
      (by decide) (by decide) (by decide)).2.2.1 (by decide) (by decide)
      (by decide))).trans (by decide)
  · exact ((claim_C5_structuralDispatch
      (EnrichedParsingResult.mk toksW5
        (PTree.node RuleKind.OtherRule ""
          [PTree.node RuleKind.OtherRule "" []])) dbW5
      (by decide) (by decide) (by decide)).2.2.2 (by decide) (by decide)
      (by decide))

/-- Claim C8: absent catalog fields act exactly as explicitly empty ones in
every completion operation.  The operations are total functions of an
immutable schema value in the embedding, so they return normally and
cannot mutate the snapshot. -/
theorem claim_C8_absentFieldsDefault (s : DbSchema)
    (tokenNames : Nat → Option String) (collectCandidates : Nat → Candidates)
    (tokens : List Token) (pr : EnrichedParsingResult)
    (parse : String → EnrichedParsingResult) (textUntilPos : String)
    (collect : EnrichedParsingResult → Nat → Candidates)
    (documentText : String) (pos : Position) :
    schemaToDbInfo s = schemaToDbInfo (fillDefaults s) ∧
    completionCoreCompletion tokenNames collectCandidates tokens
        (schemaToDbInfo s) =
      completionCoreCompletion tokenNames collectCandidates tokens
        (schemaToDbInfo (fillDefaults s)) ∧
    autoCompleteStructurally pr (schemaToDbInfo s) =
      autoCompleteStructurally pr (schemaToDbInfo (fillDefaults s)) ∧
    autoCompleteStructurallyAddingChar parse textUntilPos (schemaToDbInfo s) =
      autoCompleteStructurallyAddingChar parse textUntilPos
        (schemaToDbInfo (fillDefaults s)) ∧
    resolveCompletions parse collect tokenNames documentText pos s =
      resolveCompletions parse collect tokenNames documentText pos
        (fillDefaults s) := by
  have h : schemaToDbInfo s = schemaToDbInfo (fillDefaults s) := by
    cases s
    simp [schemaToDbInfo, fillDefaults]
  refine ⟨h, by rw [h], by rw [h], by rw [h], ?_⟩
  unfold resolveCompletions
  rw [h]

/-- Claim C9: completion resolution is a deterministic pure function of the
document text, the caret position and the schema snapshot: two invocations
with identical arguments return the identical item sequence.  In the
embedding resolveCompletions is a mathematical function owning no state
outliving the call, so the two invocations are one value. -/
theorem claim_C9_deterministic (parse : String → EnrichedParsingResult)
    (collect : EnrichedParsingResult → Nat → Candidates)
    (tokenNames : Nat → Option String) (documentText : String)
    (pos : Position) (schema : DbSchema) :
    resolveCompletions parse collect tokenNames documentText pos schema =
      resolveCompletions parse collect tokenNames documentText pos schema :=
  rfl

/-- The parse tree modelled for the document "MATCH (n:P": the stop node is
the partial label under a label expression inside a node pattern. -/
def tree7 : PTree :=
  PTree.node RuleKind.OtherRule "MATCH (n:P"
    [PTree.node RuleKind.OtherRule "MATCH" [],
     PTree.node RuleKind.NodePattern "(n:P"
       [PTree.node RuleKind.LabelExpression4 ":P"
         [PTree.node RuleKind.OtherRule "P" []]]]

/-- The parse tree modelled for the filler-character variant "MATCH (n:Px". -/
def tree7x : PTree :=
  PTree.node RuleKind.OtherRule "MATCH (n:Px"
    [PTree.node RuleKind.OtherRule "MATCH" [],
     PTree.node RuleKind.NodePattern "(n:Px"
       [PTree.node RuleKind.LabelExpression4 ":Px"
         [PTree.node RuleKind.OtherRule "Px" []]]]

/-- Modelled from the spec: the external Parse Provider's output for the
document "MATCH (n:P" and for its filler-character variant "MATCH (n:Px"
(the provider itself is excluded from the core, section 1).  The caret sits
mid-label inside a node pattern: the stop node lies under a label
expression inside a node pattern and has no relationship-pattern,
expression or procedure-name ancestor. -/
def parse7 : String → EnrichedParsingResult := fun s =>
  if s = "MATCH (n:P" then
    EnrichedParsingResult.mk
      [Token.mk 20 "MATCH", Token.mk SPACE " ", Token.mk 21 "(",
       Token.mk 22 "n", Token.mk 23 ":", Token.mk 24 "P",
       Token.mk 0 "<EOF>"] tree7
  else if s = "MATCH (n:Px" then
    EnrichedParsingResult.mk
      [Token.mk 20 "MATCH", Token.mk SPACE " ", Token.mk 21 "(",
       Token.mk 22 "n", Token.mk 23 ":", Token.mk 24 "Px",
       Token.mk 0 "<EOF>"] tree7x
  else EnrichedParsingResult.mk [] (PTree.node RuleKind.OtherRule "" [])

/-- Modelled from the spec: the Grammar Candidate Collector's output for
the document "MATCH (n:P" — the preferred label-name rule is reported with
the node-pattern rule on its enclosing stack (section 4.4, step 3), and
label text never surfaces among the token candidates because only keyword
tokens do (section 4.2). -/
def collect7 : EnrichedParsingResult → Nat → Candidates := fun _ _ =>
  Candidates.mk
    [(RULE_symbolicLabelNameString, CandidateRule.mk 5 [RULE_nodePattern])] []

/-- The schema snapshot of claim C7: labels Cat, Person, Dog. -/
def schema7 : DbSchema :=
  DbSchema.mk none none (some ["Cat", "Person", "Dog"]) none none none

/-- Counterexample to claim C7 as stated: completing "MATCH (n:P" against
labels Cat, Person, Dog yields one TypeParameter item per schema label —
rule-derived label completions are not prefix-filtered — and not exactly
the single item "Person". -/
theorem claim_C7_counterexample :
    ((resolveCompletions parse7 collect7 (fun _ => none) "MATCH (n:P"
        (Position.mk 0 10) schema7).filter fun item =>
        item.kind == CompletionItemKind.TypeParameter) =
      [{ label := "Cat", kind := CompletionItemKind.TypeParameter },
       { label := "Person", kind := CompletionItemKind.TypeParameter },
       { label := "Dog", kind := CompletionItemKind.TypeParameter }] ∧
    ((resolveCompletions parse7 collect7 (fun _ => none) "MATCH (n:P"
        (Position.mk 0 10) schema7).filter fun item =>
        item.kind == CompletionItemKind.TypeParameter) ≠
      [{ label := "Person", kind := CompletionItemKind.TypeParameter }] := by
  constructor
  · decide
  · decide

/-- Claim C7 as amended: completing "MATCH (n:P" against labels Cat,
Person, Dog yields one TypeParameter item per schema label — Person among
them — and no Keyword items at all, in particular none carrying label
text. -/
theorem claim_C7_labelCompletion :
    ({ label := "Person", kind := CompletionItemKind.TypeParameter } :
      CompletionItem) ∈
      resolveCompletions parse7 collect7 (fun _ => none) "MATCH (n:P"
        (Position.mk 0 10) schema7 ∧
    ((resolveCompletions parse7 collect7 (fun _ => none) "MATCH (n:P"
        (Position.mk 0 10) schema7).filter fun item =>
        item.kind == CompletionItemKind.TypeParameter) =
      [{ label := "Cat", kind := CompletionItemKind.TypeParameter },
       { label := "Person", kind := CompletionItemKind.TypeParameter },
       { label := "Dog", kind := CompletionItemKind.TypeParameter }] ∧
    ((resolveCompletions parse7 collect7 (fun _ => none) "MATCH (n:P"
        (Position.mk 0 10) schema7).filter fun item =>
        item.kind == CompletionItemKind.Keyword) = [] := by
  refine ⟨by decide, by decide, by decide⟩

end CypherComp
